import Mathlib

set_option autoImplicit false

/-!
Shallow embedding of the SQL optimizer agent (qagent): `src/qagent/agent.py`
(`SQLAgent._dispatch`, `SQLAgent.run_tool_loop`), `src/qagent/cli.py`
(`_extract_sql_from_model`, the `optimize` loop) and
`src/qagent/duckdb_tools.py` (`DuckDBTooling.benchmark`).  External
collaborators — the OpenAI model, the standard-library json decoder and the
DuckDB connection — are modelled as oracle parameters; everything else
follows the source.  Python exceptions that the modelled code can raise are
made explicit (`PyErr`); wall-clock milliseconds are rationals.
-/

/-- Python `x or y` on optional strings, where `None` and `""` are falsy
(models `call.get("call_id") or call.get("id")`). -/
def pyOrStr : Option String → Option String → Option String
  | some s, b => if s = "" then b else some s
  | none, b => b

/-- Rendering of `call.get("name")` inside an f-string: `None` prints as
the four characters `None`, a string prints verbatim. -/
def pyNameStr : Option String → String
  | some s => s
  | none => "None"

/-- A decoded JSON argument value; the registered tools only consume strings
and integers. -/
inductive ArgVal where
  | s (v : String)
  | i (v : Int)
deriving DecidableEq

/-- A decoded `arguments` mapping (a JSON object). -/
abbrev Args := List (String × ArgVal)

/-- Python `str()`-rendering of an argument value, as used by the f-string
`f"EXPLAIN {sql}"`. -/
def ArgVal.pyStr : ArgVal → String
  | .s v => v
  | .i v => toString v

/-- Result of one `DuckDBTooling.explain_analyze` call: its success dictionary
(fields `elapsed_ms_client`, `analyze`, `total_time_s_explain`) or its
caught-exception dictionary (field `error`).  The underlying DuckDB execution
is opaque, so this is the oracle type for the measurement primitive. -/
inductive EAres where
  | ok (elapsed_ms_client : ℚ) (analyze : String) (total_time_s_explain : Option ℚ)
  | err (error : String)
deriving DecidableEq

def EAres.isOk : EAres → Bool
  | .ok _ _ _ => true
  | .err _ => false

/-- The dictionary returned by `DuckDBTooling.benchmark`. -/
inductive BenchR where
  | fail (error : Option String)
  | success (runs warmup : Int) (elapsed_ms : List ℚ) (median_ms : ℚ)
      (analyze_sample : Option String) (total_time_s_explain_sample : Option ℚ)
deriving DecidableEq

/-- The `ok` field of a benchmark dictionary. -/
def BenchR.okFlag : BenchR → Bool
  | .fail _ => false
  | .success _ _ _ _ _ _ => true

/-- The `median_ms` field of a benchmark dictionary (reading it on a failure
dictionary would be a `KeyError`; the caller always checks `ok` first, so the
default value on `fail` is never observed by the modelled code). -/
def BenchR.median_ms : BenchR → ℚ
  | .fail _ => 0
  | .success _ _ _ m _ _ => m

/-- Uncaught Python exceptions the modelled code can raise. -/
inductive PyErr where
  | typeError
  | indexError
deriving DecidableEq

/-- Insertion into an ascending-sorted list of rationals. -/
def insertAsc (x : ℚ) : List ℚ → List ℚ
  | [] => [x]
  | y :: ys => if x ≤ y then x :: y :: ys else y :: insertAsc x ys

/-- Model of Python `sorted` on a list of rationals.  Stability is
irrelevant here because equal rationals are equal values. -/
def pySorted (l : List ℚ) : List ℚ := l.foldr insertAsc []

/-- Warmup loop of `benchmark`: perform `k` `explain_analyze` calls starting
at call index `i`, stopping at the first failure (whose `error` field is
returned). -/
def bench_warmup (ea : Nat → EAres) : Nat → Nat → Except String Unit
  | _, 0 => .ok ()
  | i, k+1 =>
    match ea i with
    | .err e => .error e
    | .ok _ _ _ => bench_warmup ea (i+1) k

/-- Measured loop of `benchmark`: collect the `elapsed_ms_client` samples in
call order together with the last `analyze` and `total_time_s_explain`
values, stopping at the first failure. -/
def bench_measure (ea : Nat → EAres) :
    Nat → Nat → List ℚ → Option String → Option ℚ →
    Except String (List ℚ × Option String × Option ℚ)
  | _, 0, acc, la, lt => .ok (acc, la, lt)
  | i, k+1, acc, _, _ =>
    match ea i with
    | .err e => .error e
    | .ok t a ts => bench_measure ea (i+1) k (acc ++ [t]) (some a) ts

/-- Model of `DuckDBTooling.benchmark` (duckdb_tools.py, lines 139-172), with
the underlying `explain_analyze` calls supplied by the oracle `ea` (call
index within this invocation ↦ result).  `warmup.toNat` and `runs.toNat`
model Python `range` on possibly negative ints.  The source also takes a
`timeout_s` argument which it merely forwards to `explain_analyze`, where it
is never read; it is omitted here.  The final indexing
`times_sorted[len(times_sorted) // 2]` raises `IndexError` when the sample
list is empty. -/
def DuckDBTooling.benchmark (ea : Nat → EAres) (runs warmup : Int) :
    Except PyErr BenchR :=
  match bench_warmup ea 0 warmup.toNat with
  | .error e => .ok (.fail (some e))
  | .ok _ =>
    match bench_measure ea warmup.toNat runs.toNat [] none none with
    | .error e => .ok (.fail (some e))
    | .ok (times, la, lt) =>
      let ts := pySorted times
      match ts.get? (ts.length / 2) with
      | some m => .ok (.success runs warmup times m la lt)
      | none => .error .indexError

/-- A tool-result dictionary: either an opaque result of one of the
catalog/plan oracles (`{ok, ...payload | error}`), the unknown-tool
dictionary `{ok: False, error: f"Unknown tool: {name}", name, args}` built by
`SQLAgent._dispatch`, or a benchmark dictionary. -/
inductive ToolResult where
  | payload (ok : Bool) (error : Option String) (data : String)
  | unknownTool (name : Option String) (args : Args)
  | bench (b : BenchR)
deriving DecidableEq

/-- The `ok` field of a tool-result dictionary. -/
def ToolResult.okField : ToolResult → Bool
  | .payload ok _ _ => ok
  | .unknownTool _ _ => false
  | .bench b => b.okFlag

/-- The `error` field of a tool-result dictionary (absent on successes). -/
def ToolResult.errorField : ToolResult → Option String
  | .payload _ e _ => e
  | .unknownTool n _ => some ("Unknown tool: " ++ pyNameStr n)
  | .bench (.fail e) => e
  | .bench (.success _ _ _ _ _ _) => none

/-- Oracle for a `DuckDBTooling` instance: the catalog and plan methods are
opaque reads of the DuckDB connection; `describe_found` tells whether the
catalog query of `describe_relation` returns any rows for a name (its
emptiness check precedes the `rows[:sample_cols]` slice); `explain_analyze`
(sql, call index ↦ result) is the measurement primitive driving
`benchmark`. -/
structure Tooling where
  list_tables : ToolResult
  table_exists : String → ToolResult
  describe_relation : String → Int → ToolResult
  describe_found : String → Bool
  explain : String → ToolResult
  explain_analyze : String → Nat → EAres

def lookupArg (args : Args) (k : String) : Option ArgVal :=
  (args.find? (fun kv => kv.1 == k)).map (fun kv => kv.2)

def keysWithin (args : Args) (allowed : List String) : Bool :=
  args.all (fun kv => allowed.contains kv.1)

/-- The five registered tool names (agent.py, lines 42-51). -/
def registeredTools : List String :=
  ["list_tables", "table_exists", "describe_relation", "explain", "benchmark"]

/-- The `benchmark` method invoked through `**args` with arbitrary argument
values: Python does not enforce the `runs: int` and `warmup: int`
annotations, and the body reaches `range(warmup)` first, so a non-int warmup
raises `TypeError` before any `explain_analyze` call, while a non-int runs
raises only after the whole warmup loop succeeded — a failing warmup still
returns the `{ok: False, error}` dictionary. -/
def benchmarkDynamic (ea : Nat → EAres) (runs warmup : ArgVal) :
    Except PyErr BenchR :=
  match warmup with
  | .s _ => .error .typeError
  | .i w =>
    match runs with
    | .i r => DuckDBTooling.benchmark ea r w
    | .s _ =>
      match bench_warmup ea 0 w.toNat with
      | .error e => .ok (.fail (some e))
      | .ok _ => .error .typeError

/-- Model of `SQLAgent._dispatch` (agent.py, lines 41-52), including the
Python call-binding semantics of `self.tooling.method(**args)`: a missing
required key or an unexpected key raises `TypeError` at the call, and a
value whose type makes the method body raise uncaught (`"." in name` on an
int, `range` on a string, `rows[:sample_cols]` with a string bound) is a
`TypeError` at the point the body reaches it — for `describe_relation` the
catalog emptiness check precedes the slice, and for `benchmark` the warmup
loop precedes `range(runs)`.  `list_tables` is called without `**args`
(agent.py, line 43), so its arguments are ignored and it never raises.  An
unknown name never raises: it returns the
`{ok: False, error: f"Unknown tool: {name}", name, args}` dictionary. -/
def SQLAgent.dispatch (T : Tooling) (name : Option String) (args : Args) :
    Except PyErr ToolResult :=
  if name = some "list_tables" then
    .ok T.list_tables
  else if name = some "table_exists" then
    if keysWithin args ["name"] then
      match lookupArg args "name" with
      | some (.s v) => .ok (T.table_exists v)
      | some (.i _) => .error .typeError
      | none => .error .typeError
    else .error .typeError
  else if name = some "describe_relation" then
    if keysWithin args ["name", "sample_cols"] then
      match lookupArg args "name" with
      | some (.s v) =>
        match lookupArg args "sample_cols" with
        | none => .ok (T.describe_relation v 200)
        | some (.i n) => .ok (T.describe_relation v n)
        | some (.s _) =>
          if T.describe_found v then .error .typeError
          else .ok (.payload false (some ("Relation not found in catalog: " ++ v)) "")
      | some (.i _) => .error .typeError
      | none => .error .typeError
    else .error .typeError
  else if name = some "explain" then
    if keysWithin args ["sql"] then
      match lookupArg args "sql" with
      | some v => .ok (T.explain v.pyStr)
      | none => .error .typeError
    else .error .typeError
  else if name = some "benchmark" then
    if keysWithin args ["sql", "runs", "warmup", "timeout_s"] then
      match lookupArg args "sql" with
      | none => .error .typeError
      | some sqlv =>
        match benchmarkDynamic (T.explain_analyze sqlv.pyStr)
            ((lookupArg args "runs").getD (.i 3))
            ((lookupArg args "warmup").getD (.i 1)) with
        | .ok b => .ok (.bench b)
        | .error e => .error e
    else .error .typeError
  else
    .ok (.unknownTool name args)

/-- Python `str.strip` on a character list. -/
def stripChars (cs : List Char) : List Char :=
  ((cs.dropWhile Char.isWhitespace).reverse.dropWhile Char.isWhitespace).reverse

/-- Python `"\\n".join` on character lists. -/
def joinWithNewlines : List String -> List Char
  | [] => []
  | [s] => s.data
  | s :: rest => s.data ++ Char.ofNat 10 :: joinWithNewlines rest

/-- One element of the `content` list of a model `message` item: a
dictionary with a `type` tag and a `text` payload. -/
structure ContentPart where
  type : String
  text : String
deriving DecidableEq

/-- The `content` of a model `message` item: a list of parts, a bare string,
or anything else (ignored by the loop). -/
inductive ContentVal where
  | parts (ps : List ContentPart)
  | str (s : String)
  | other
deriving DecidableEq

/-- The `arguments` value carried by a `function_call` item: a serialized
string, an already-decoded object, or JSON null. -/
inductive ArgStrVal where
  | str (s : String)
  | dict (a : Args)
  | nullv
deriving DecidableEq

/-- One item of a Model Gateway response (`resp["output"]`).  All of the
`name`, `arguments`, `call_id` and `id` keys of a `function_call` item may be
absent (`call.get(...)`). -/
inductive Item where
  | functionCall (name : Option String) (arguments : Option ArgStrVal)
      (call_id : Option String) (id : Option String)
  | message (content : ContentVal)
  | other (type : String)
deriving DecidableEq

/-- A transcript record of `self.messages`.  Gateway output items are
appended verbatim (`item`); each dispatched call is answered by a
`function_call_output` record.  The source stores `json.dumps(result)` in the
`output` field; the embedding keeps the result dictionary itself. -/
inductive Msg where
  | system (content : String)
  | user (content : String)
  | assistant (content : String)
  | item (it : Item)
  | functionCallOutput (call_id : Option String) (output : ToolResult)
deriving DecidableEq

/-- An entry of the `events` list returned for the UI. -/
inductive Event where
  | toolCall (name : Option String) (args : Args)
  | toolResult (name : Option String) (result : ToolResult)
deriving DecidableEq

structure StepState where
  messages : List Msg
  events : List Event
deriving DecidableEq

structure AgentConfig where
  max_tool_steps : Nat
deriving DecidableEq

/-- Argument decoding (agent.py, lines 85-91): an absent `arguments` key
defaults to the string `"{}"`; a string is decoded with the json decoder `d`,
any decoding failure yielding the empty mapping; a non-string is `args or {}`
(a dictionary stands for itself, null for the empty mapping). -/
def decodeArguments (d : String → Option Args) : Option ArgStrVal → Args
  | none => (d "{}").getD []
  | some (.str s) => (d s).getD []
  | some (.dict a) => a
  | some .nullv => []

def Item.isFunctionCall : Item → Bool
  | .functionCall _ _ _ _ => true
  | _ => false

/-- The call identifier the loop attaches to the tool result:
`call.get("call_id") or call.get("id")`. -/
def Item.effCallId : Item → Option String
  | .functionCall _ _ cid iid => pyOrStr cid iid
  | _ => none

/-- Text fragments contributed by one response item (agent.py, lines 70-80):
only `message` items contribute, and only parts typed `output_text` or
`text`. -/
def Item.textChunks : Item → List String
  | .message (.parts ps) =>
      ps.filterMap (fun c =>
        if c.type = "output_text" ∨ c.type = "text" then some c.text else none)
  | .message (.str s) => [s]
  | _ => []

def collectChunks (items : List Item) : List String :=
  (items.map Item.textChunks).flatten

/-- Final-text assembly (agent.py, line 115):
`"\n".join([t for t in chunks if t.strip()]).strip() or None`. -/
def joinChunks (chunks : List String) : Option String :=
  let kept := chunks.filter (fun t => !(stripChars t.data).isEmpty)
  let s := stripChars (joinWithNewlines kept)
  if s.isEmpty then none else some (String.mk s)

/-- Outcome of a block of Python statements that may raise: the state at
normal completion, or the uncaught exception together with the object state
at raise time (`self.messages` and the events list survive the raise). -/
inductive ExecR (α : Type) where
  | ok (a : α)
  | raised (e : PyErr) (a : α)
deriving DecidableEq

/-- Processing of one tool call (agent.py, lines 83-112): decode the
arguments, record the `tool_call` event, dispatch, record the `tool_result`
event and append the `function_call_output` transcript record.  An exception
from the dispatch aborts with only the `tool_call` event recorded. -/
def processCall (d : String → Option Args) (T : Tooling) (it : Item)
    (st : StepState) : ExecR StepState :=
  match it with
  | .functionCall nm argv cid iid =>
    let args := decodeArguments d argv
    let call_id := pyOrStr cid iid
    let st1 : StepState := { st with events := st.events ++ [.toolCall nm args] }
    match SQLAgent.dispatch T nm args with
    | .error e => .raised e st1
    | .ok result =>
      .ok { st1 with
            events := st1.events ++ [.toolResult nm result],
            messages := st1.messages ++ [.functionCallOutput call_id result] }
  | _ => .ok st

def processCalls (d : String → Option Args) (T : Tooling) :
    List Item → StepState → ExecR StepState
  | [], st => .ok st
  | it :: rest, st =>
    match processCall d T it st with
    | .ok st' => processCalls d T rest st'
    | .raised e st' => .raised e st'

/-- Outcome of `run_tool_loop`: a normal return of `(final_text, events)`
(the state holds the events and the transcript), or an uncaught exception. -/
inductive LoopOutcome where
  | done (final_text : Option String) (st : StepState)
  | raised (e : PyErr) (st : StepState)
deriving DecidableEq

def LoopOutcome.stateOf : LoopOutcome → StepState
  | .done _ st => st
  | .raised _ st => st

def LoopOutcome.isDone : LoopOutcome → Bool
  | .done _ _ => true
  | .raised _ _ => false

def LoopOutcome.textOf : LoopOutcome → Option String
  | .done ft _ => ft
  | .raised _ _ => none

def LoopOutcome.raisedErr : LoopOutcome → Option PyErr
  | .done _ _ => none
  | .raised e _ => some e

/-- The sentinel returned when the step budget is exhausted
(agent.py, line 120). -/
def maxStepsSentinel : String := "Stopped: reached max_tool_steps."

/-- Model of `SQLAgent.run_tool_loop` (agent.py, lines 54-120).  The Model
Gateway is the oracle `llm` (step index ↦ response output items) and the
json decoder is `d`.  Each step appends the raw output items to the
transcript, partitions them, and either processes every tool call in order
and continues, or assembles the final text and returns.  Returns the outcome
together with the number of Model Gateway calls performed. -/
def run_tool_loop_aux (llm : Nat → List Item) (d : String → Option Args)
    (T : Tooling) : Nat → Nat → StepState → LoopOutcome × Nat
  | _, 0, st => (.done (some maxStepsSentinel) st, 0)
  | step, fuel+1, st =>
    let items := llm step
    let st1 : StepState := { st with messages := st.messages ++ items.map Msg.item }
    let calls := items.filter Item.isFunctionCall
    if calls.isEmpty then
      let ft := joinChunks (collectChunks items)
      let st2 : StepState :=
        match ft with
        | some t => { st1 with messages := st1.messages ++ [Msg.assistant t] }
        | none => st1
      (.done ft st2, 1)
    else
      match processCalls d T calls st1 with
      | .raised e st2 => (.raised e st2, 1)
      | .ok st2 =>
        let r := run_tool_loop_aux llm d T (step+1) fuel st2
        (r.1, r.2 + 1)

def run_tool_loop (llm : Nat → List Item) (d : String → Option Args)
    (T : Tooling) (cfg : AgentConfig) (st : StepState) : LoopOutcome × Nat :=
  run_tool_loop_aux llm d T 0 cfg.max_tool_steps st

/-- The backtick character (code 96). -/
def backtick : Char := Char.ofNat 96

/-- Test whether the character list starts with a case-insensitive fence
opener (three backticks followed by `sql` in either case), the literal part
of the regex `SQL_BLOCK_RE` (cli.py, line 17). -/
def startsFence : List Char → Bool
  | a :: b :: c :: x :: y :: z :: _ =>
    a == backtick && b == backtick && c == backtick &&
      x.toLower == 's' && y.toLower == 'q' && z.toLower == 'l'
  | _ => false

/-- Rest of the input after the first fence opener, if any
(the leftmost-match search of `SQL_BLOCK_RE.search`). -/
def afterFence : List Char → Option (List Char)
  | [] => none
  | c :: rest =>
    if startsFence (c :: rest) then some ((c :: rest).drop 6) else afterFence rest

/-- Test whether the character list starts with a closing fence
(three backticks). -/
def startsClose : List Char → Bool
  | a :: b :: c :: _ => a == backtick && b == backtick && c == backtick
  | _ => false

/-- Characters strictly before the first closing fence, if one occurs
(the lazy group `(.*?)` of `SQL_BLOCK_RE`, with `re.DOTALL`). -/
def upToClose : List Char → Option (List Char)
  | [] => none
  | c :: rest =>
    if startsClose (c :: rest) then some []
    else (upToClose rest).map (fun l => c :: l)

/-- Substring test on character lists (Python `needle in hay`). -/
def listContains : List Char → List Char → Bool
  | [], needle => needle.isEmpty
  | hay@(_ :: t), needle => needle.isPrefixOf hay || listContains t needle

/-- Python `"select" in text.lower()`. -/
def containsSelect (text : String) : Bool :=
  listContains (text.data.map Char.toLower) "select".data

/-- Model of `_extract_sql_from_model` (cli.py, lines 19-28): the body of the
first fenced sql block, stripped, when `SQL_BLOCK_RE` matches; otherwise the
stripped whole text when it contains `select` case-insensitively; otherwise
nothing.  The empty string is falsy (`if not text`).  `SQL_BLOCK_RE` matches
iff a fence opener occurs and a closing fence occurs after it; the match is
at the first opener, because any later opener would itself close the first
one, and the whitespace absorbed by the greedy `\s*` is removed by `strip`
either way. -/
def extract_sql_from_model (text : String) : Option String :=
  if text = "" then none
  else
    match afterFence text.data with
    | some rest =>
      match upToClose rest with
      | some content => some (String.mk (stripChars content))
      | none =>
        if containsSelect text then some (String.mk (stripChars text.data)) else none
    | none =>
      if containsSelect text then some (String.mk (stripChars text.data)) else none

/-- Decidable presence of a fenced sql block (a fence opener with a closing
fence after it), i.e. the condition under which `SQL_BLOCK_RE` matches. -/
def hasFencedBlock (text : String) : Bool :=
  match afterFence text.data with
  | some rest => (upToClose rest).isSome
  | none => false

/-- The `best_report` dictionary of the optimization loop
(cli.py, line 117). -/
structure BestReport where
  benchmark : BenchR
  model_text : String
  improve_pct : ℚ
deriving DecidableEq

/-- The mutable round state of the optimization loop: the best SQL so far,
the reference median it was measured at (`base_ms`), and the best report. -/
structure OptState where
  best_sql : String
  base_ms : ℚ
  best_report : Option BestReport
deriving DecidableEq

/-- The improvement percentage of round `it` against the current reference
(cli.py, line 103): `improve_pct = (base_ms - cand_ms) / base_ms * 100.0`. -/
def improvePct (bench : Nat → BenchR) (it : Nat) (s : OptState) : ℚ :=
  (s.base_ms - (bench it).median_ms) / s.base_ms * 100

/-- The state after the comparison step of round `it` (cli.py, lines
113-117): the candidate is adopted as new best and new reference exactly when
`cand_ms < base_ms` (strict), in which case `best_report` records the
candidate benchmark, the model text and the improvement. -/
def roundUpdate (mt : Nat → Option String) (bench : Nat → BenchR) (it : Nat)
    (cand : String) (s : OptState) : OptState :=
  if (bench it).median_ms < s.base_ms then
    { best_sql := cand, base_ms := (bench it).median_ms,
      best_report := some { benchmark := bench it,
                            model_text := (mt it).getD "",
                            improve_pct := improvePct bench it s } }
  else s

/-- Model of the iteration body of `optimize` (cli.py, lines 75-121).  Round
`it` runs the dialogue loop (its final text is the oracle `mt it`, with
Python `or ""` applied), extracts a candidate, benchmarks it (the outcome is
the oracle `bench it`), and updates and possibly stops.  A falsy candidate —
no extraction, or the extracted empty string — breaks out of the loop
(`if not cand_sql: break`, cli.py line 90); a failed candidate benchmark
continues with the next round. -/
def optimizeRounds (mt : Nat → Option String) (bench : Nat → BenchR) (th : ℚ) :
    Nat → Nat → OptState → OptState
  | _, 0, s => s
  | it, k+1, s =>
    match extract_sql_from_model ((mt it).getD "") with
    | none => s
    | some cand =>
      if cand = "" then s
      else if (bench it).okFlag = false then optimizeRounds mt bench th (it+1) k s
      else
        let s' := roundUpdate mt bench it cand s
        if th ≤ improvePct bench it s then s'
        else optimizeRounds mt bench th (it+1) k s'

/-- Model of `optimize` (cli.py, lines 63-123): benchmark the input directly
for the baseline (`base_bench`); a baseline failure fails the whole run
(`typer.Exit`, modelled as `none`); otherwise run up to `max_iters` rounds
starting from iteration 1 and return the final round state. -/
def optimize (mt : Nat → Option String) (bench : Nat → BenchR)
    (base_bench : BenchR) (min_improve_pct : ℚ) (max_iters : Int)
    (bad_sql : String) : Option OptState :=
  if base_bench.okFlag = false then none
  else
    some (optimizeRounds mt bench min_improve_pct 1 max_iters.toNat
      { best_sql := bad_sql, base_ms := base_bench.median_ms, best_report := none })

/-- Concrete `explain_analyze` oracle used by witnesses: call `i` succeeds
with elapsed time `i + 1` milliseconds. -/
def eaW : Nat → EAres := fun i => .ok (i + 1 : ℚ) "plan" none

/-- Concrete tooling oracle used by witnesses and counterexamples. -/
def toolingW : Tooling :=
  { list_tables := .payload true none "tables"
    table_exists := fun n => .payload true none n
    describe_relation := fun n _ => .payload true none n
    describe_found := fun _ => true
    explain := fun s => .payload true none s
    explain_analyze := fun _ i => .ok (i + 1 : ℚ) "plan" none }

/-- A json decoder that decodes every argument string to the empty object. -/
def decodeOk : String → Option Args := fun _ => some []

/-- A json decoder on which every argument string fails to decode. -/
def decodeFail : String → Option Args := fun _ => none

/-- Gateway oracle for the C1 counterexample: one `function_call` whose
`call_id` key is present but the empty string while its `id` is `fc_1`,
then a terminal text turn. -/
def llmC1x : Nat → List Item
  | 0 => [.functionCall (some "list_tables") none (some "") (some "fc_1")]
  | 1 => [.message (.parts [⟨"output_text", "done"⟩])]
  | _ => []

/-- Gateway oracle for the C1 witness: two tool calls with distinct
identifiers in one turn — one a `list_tables` call carrying superfluous
arguments, which the source ignores because it invokes the method without
`**args` — then a terminal text turn. -/
def llmC1w : Nat → List Item
  | 0 => [.functionCall (some "list_tables") (some (.dict [("x", .i 1)]))
            (some "a") none,
          .functionCall (some "explain") (some (.dict [("sql", .s "SELECT 1")]))
            (some "b") none]
  | 1 => [.message (.parts [⟨"output_text", "done"⟩])]
  | _ => []

/-- Gateway oracle for C3's witness: every turn requests a `list_tables`
call carrying superfluous arguments (ignored by the source, which invokes
the method without `**args`), so no step raises and the step budget is
exhausted. -/
def llmAllCalls : Nat → List Item := fun _ =>
  [.functionCall (some "list_tables") (some (.dict [("x", .i 1)])) (some "c") none]

/-- Gateway oracle for C4: a `table_exists` call whose arguments decode to
the empty mapping (the serialized form is the well-formed empty object). -/
def llmC4 : Nat → List Item
  | 0 => [.functionCall (some "table_exists") (some (.str "{}")) (some "call_1") none]
  | _ => []

/-- Gateway oracle for C9: a `table_exists` call whose serialized arguments
fail to decode. -/
def llmC9 : Nat → List Item
  | 0 => [.functionCall (some "table_exists") (some (.str "not-json")) (some "call_1") none]
  | _ => []

/-- Gateway oracle contrasting C9: a `list_tables` call whose serialized
arguments fail to decode, followed by a terminal turn. -/
def llmC9b : Nat → List Item
  | 0 => [.functionCall (some "list_tables") (some (.str "not-json")) (some "call_2") none]
  | 1 => [.message (.parts [⟨"output_text", "done"⟩])]
  | _ => []

/-- Per-round final-text oracle used by optimization-loop witnesses. -/
def mtW : Nat → Option String := fun _ => some "SELECT a FROM t"

/-- Per-round candidate-benchmark oracle used by the C2 witness: every
candidate measures a median of 5 ms. -/
def benchW5 : Nat → BenchR := fun _ => .success 3 1 [5, 5, 5] 5 none none

/-- Per-round candidate-benchmark oracle used by the C6 witness: every
candidate measures a median of 90 ms. -/
def benchW90 : Nat → BenchR := fun _ => .success 3 1 [90, 90, 90] 90 none none

/-- Per-round candidate-benchmark oracle used by the C8 witness: every
candidate benchmark fails. -/
def benchWfail : Nat → BenchR := fun _ => .fail (some "boom")

/-- Final-text oracle with no SQL at all in the model output. -/
def mtNoSql : Nat → Option String := fun _ => some "I cannot help with that."

def Msg.isFCO : Msg → Bool
  | .functionCallOutput _ _ => true
  | _ => false

def Msg.isFCOWith (e : Option String) : Msg → Bool
  | .functionCallOutput i _ => i == e
  | _ => false

/-- The call identifier asserted by the specification for a tool-invocation
request: its `call_id` when that key is present, otherwise its `id`. -/
def Item.specCallId : Item → Option String
  | .functionCall _ _ (some s) _ => some s
  | .functionCall _ _ none iid => iid
  | _ => none

def ExecR.isOk {α : Type} : ExecR α → Bool
  | .ok _ => true
  | .raised _ _ => false

def ExecR.state {α : Type} : ExecR α → α
  | .ok a => a
  | .raised _ a => a

/-- The `function_call_output` record that processing one item appends, when
its dispatch returns normally. -/
def outMsgOf (d : String → Option Args) (T : Tooling) : Item → Option Msg
  | .functionCall nm argv cid iid =>
    match SQLAgent.dispatch T nm (decodeArguments d argv) with
    | .ok r => some (.functionCallOutput (pyOrStr cid iid) r)
    | .error _ => none
  | _ => none

theorem insertAsc_length (x : ℚ) : ∀ l : List ℚ, (insertAsc x l).length = l.length + 1 := by
  intro l
  induction l with
  | nil => rfl
  | cons y ys ih =>
    rw [insertAsc]
    by_cases h : x ≤ y
    · simp [h]
    · simp [h, ih]

theorem pySorted_length : ∀ l : List ℚ, (pySorted l).length = l.length := by
  intro l
  induction l with
  | nil => rfl
  | cons y ys ih =>
    show (insertAsc y (pySorted ys)).length = ys.length + 1
    rw [insertAsc_length, ih]

theorem bench_warmup_ok (ea : Nat → EAres) :
    ∀ (k i : Nat), (∀ j, j < k → (ea (i + j)).isOk = true) →
      bench_warmup ea i k = .ok () := by
  intro k
  induction k with
  | zero => intro i _; rfl
  | succ n ih =>
    intro i h
    have h0 := h 0 (Nat.succ_pos n)
    rw [Nat.add_zero] at h0
    cases hi : ea i with
    | err e => rw [hi] at h0; simp [EAres.isOk] at h0
    | ok t a s =>
      simp only [bench_warmup]
      rw [hi]
      exact ih (i + 1) (fun j hj => by
        have hh := h (j + 1) (Nat.succ_lt_succ hj)
        have e : i + (j + 1) = i + 1 + j := by omega
        rwa [e] at hh)

theorem bench_measure_ok (ea : Nat → EAres) :
    ∀ (k i : Nat) (acc : List ℚ) (la : Option String) (lt : Option ℚ),
      (∀ j, j < k → (ea (i + j)).isOk = true) →
      ∃ ts la' lt', bench_measure ea i k acc la lt = .ok (acc ++ ts, la', lt')
        ∧ ts.length = k := by
  intro k
  induction k with
  | zero =>
    intro i acc la lt _
    exact ⟨[], la, lt, by simp [bench_measure], rfl⟩
  | succ n ih =>
    intro i acc la lt h
    have h0 := h 0 (Nat.succ_pos n)
    rw [Nat.add_zero] at h0
    cases hi : ea i with
    | err e => rw [hi] at h0; simp [EAres.isOk] at h0
    | ok t a s =>
      obtain ⟨ts, la', lt', heq, hlen⟩ := ih (i + 1) (acc ++ [t]) (some a) s
        (fun j hj => by
          have hh := h (j + 1) (Nat.succ_lt_succ hj)
          have e : i + (j + 1) = i + 1 + j := by omega
          rwa [e] at hh)
      refine ⟨t :: ts, la', lt', ?_, by simp [hlen]⟩
      simp only [bench_measure]
      rw [hi]
      show bench_measure ea (i + 1) n (acc ++ [t]) (some a) s
          = Except.ok (acc ++ t :: ts, la', lt')
      rw [heq]
      simp

/-- C10: when every warmup and measured `explain_analyze` call succeeds, the
benchmark returns `ok=true` with exactly `runs` samples in `elapsed_ms` and
`median_ms` the element of the sorted samples at index `runs / 2` rounded
down; this is total only for `runs ≥ 1` — for `runs = 0` with successful
warmups the median computation indexes into the empty list, so no tool-result
dictionary is returned (an `IndexError` escapes). -/
theorem claimC10 (ea : Nat → EAres) (runs warmup : Int)
    (hok : ∀ i, i < warmup.toNat + runs.toNat → (ea i).isOk = true) :
    (1 ≤ runs →
      ∃ times m la lt,
        DuckDBTooling.benchmark ea runs warmup
            = .ok (.success runs warmup times m la lt)
          ∧ times.length = runs.toNat
          ∧ (pySorted times).get? (runs.toNat / 2) = some m
          ∧ (ToolResult.bench (.success runs warmup times m la lt)).okField = true)
    ∧ (runs = 0 → DuckDBTooling.benchmark ea runs warmup = .error .indexError) := by
  have hw : bench_warmup ea 0 warmup.toNat = .ok () :=
    bench_warmup_ok ea warmup.toNat 0 (fun j hj => by
      have := hok (0 + j) (by omega)
      rwa [Nat.zero_add] at this ⊢)
  obtain ⟨times, la, lt, hmeq, hlen⟩ :=
    bench_measure_ok ea runs.toNat warmup.toNat [] none none
      (fun j hj => hok (warmup.toNat + j) (by omega))
  rw [List.nil_append] at hmeq
  constructor
  · intro h1
    have hn : 1 ≤ runs.toNat := by omega
    have hslen : (pySorted times).length = runs.toNat := by
      rw [pySorted_length, hlen]
    have hidx : (pySorted times).length / 2 < (pySorted times).length := by
      rw [hslen]; exact Nat.div_lt_self (by omega) (by omega)
    cases hg : (pySorted times).get? ((pySorted times).length / 2) with
    | none =>
      rw [List.get?_eq_none] at hg
      omega
    | some m =>
      refine ⟨times, m, la, lt, ?_, hlen, ?_, rfl⟩
      · simp only [DuckDBTooling.benchmark]
        rw [hw, hmeq]
        simp only [hg]
      · rwa [hslen] at hg
  · intro h0
    subst h0
    simp only [Int.toNat_zero] at hmeq
    have hnil : times = [] := List.length_eq_zero.mp (by rw [hlen]; rfl)
    subst hnil
    simp only [DuckDBTooling.benchmark, Int.toNat_zero]
    rw [hw, hmeq]
    rfl

/-- Concrete witness for C10: three successful measured runs after one warmup
yield samples of length three with the middle sorted element as median, and
the same oracle with `runs = 0` raises. -/
theorem claimC10_witness :
    (∃ times m la lt,
        DuckDBTooling.benchmark eaW 3 1 = .ok (.success 3 1 times m la lt)
          ∧ times.length = 3
          ∧ (pySorted times).get? 1 = some m
          ∧ (ToolResult.bench (.success 3 1 times m la lt)).okField = true)
    ∧ DuckDBTooling.benchmark eaW 0 1 = .error .indexError := by
  refine ⟨(claimC10 eaW 3 1 ?_).1 (by norm_num), (claimC10 eaW 0 1 ?_).2 rfl⟩
  · intro i hi
    rfl
  · intro i hi
    rfl

/-- C5: dispatching a tool invocation whose name is not one of the five
registered tool names never raises; it returns the
`{ok: False, error: f"Unknown tool: {name}", name, args}` dictionary, and
processing the call appends it as a normal tool result so the loop continues
to the next step. -/
theorem claimC5 (T : Tooling) (name : Option String) (args : Args)
    (h : ∀ t ∈ registeredTools, name ≠ some t) :
    SQLAgent.dispatch T name args = .ok (.unknownTool name args)
    ∧ (ToolResult.unknownTool name args).okField = false
    ∧ (ToolResult.unknownTool name args).errorField
        = some ("Unknown tool: " ++ pyNameStr name)
    ∧ ∀ (d : String → Option Args) (argv : Option ArgStrVal)
        (cid iid : Option String) (st : StepState),
        processCall d T (.functionCall name argv cid iid) st =
          .ok { messages := st.messages ++
                  [.functionCallOutput (pyOrStr cid iid)
                    (.unknownTool name (decodeArguments d argv))],
                events := st.events ++
                  [.toolCall name (decodeArguments d argv),
                   .toolResult name (.unknownTool name (decodeArguments d argv))] } := by
  have h1 : ¬(name = some "list_tables") := h "list_tables" (by simp [registeredTools])
  have h2 : ¬(name = some "table_exists") := h "table_exists" (by simp [registeredTools])
  have h3 : ¬(name = some "describe_relation") :=
    h "describe_relation" (by simp [registeredTools])
  have h4 : ¬(name = some "explain") := h "explain" (by simp [registeredTools])
  have h5 : ¬(name = some "benchmark") := h "benchmark" (by simp [registeredTools])
  have hd : ∀ a : Args, SQLAgent.dispatch T name a = .ok (.unknownTool name a) := by
    intro a
    simp only [SQLAgent.dispatch, if_neg h1, if_neg h2, if_neg h3, if_neg h4, if_neg h5]
  refine ⟨hd args, rfl, rfl, ?_⟩
  intro d argv cid iid st
  simp only [processCall, hd (decodeArguments d argv), List.append_assoc,
    List.singleton_append, List.cons_append, List.nil_append]

/-- Witness for C5 at the unregistered name `row_count`. -/
theorem claimC5_witness :
    SQLAgent.dispatch toolingW (some "row_count") [("name", ArgVal.s "t")]
        = .ok (.unknownTool (some "row_count") [("name", ArgVal.s "t")])
    ∧ (ToolResult.unknownTool (some "row_count") [("name", ArgVal.s "t")]).okField = false
    ∧ (ToolResult.unknownTool (some "row_count") [("name", ArgVal.s "t")]).errorField
        = some ("Unknown tool: " ++ pyNameStr (some "row_count")) := by
  have h := claimC5 toolingW (some "row_count") [("name", ArgVal.s "t")] (by decide)
  exact ⟨h.1, h.2.1, h.2.2.1⟩

/-- C4 (code bug): a tool invocation of the registered tool `table_exists`
whose arguments decode to the empty mapping is not captured as an
`{ok: False, error}` tool result — the dispatch `table_exists(**{})` raises
`TypeError`, which escapes `run_tool_loop`: the outcome is an exception, no
`function_call_output` record is appended, and the events stop after the
`tool_call` entry. -/
theorem claimC4 :
    SQLAgent.dispatch toolingW (some "table_exists") [] = .error .typeError
    ∧ (run_tool_loop llmC4 decodeOk toolingW ⟨5⟩ ⟨[], []⟩).1.raisedErr
        = some .typeError
    ∧ ((run_tool_loop llmC4 decodeOk toolingW ⟨5⟩ ⟨[], []⟩).1.stateOf.messages.filter
        Msg.isFCO).length = 0
    ∧ (run_tool_loop llmC4 decodeOk toolingW ⟨5⟩ ⟨[], []⟩).1.stateOf.events
        = [.toolCall (some "table_exists") []] :=
  ⟨rfl, by decide, by decide, by decide⟩

/-- C9 (code bug): when the serialized arguments fail to decode the decoded
arguments are indeed the empty mapping, and the loop does go on to dispatch
the tool — but for a registered tool with a required parameter
(`table_exists`) that dispatch raises `TypeError`, so the turn aborts with no
tool result appended, instead of proceeding.  For a tool that accepts the
empty mapping (`list_tables`) the turn does proceed and appends the tool
result. -/
theorem claimC9 :
    decodeArguments decodeFail (some (.str "not-json")) = []
    ∧ (run_tool_loop llmC9 decodeFail toolingW ⟨5⟩ ⟨[], []⟩).1.raisedErr
        = some .typeError
    ∧ ((run_tool_loop llmC9 decodeFail toolingW ⟨5⟩ ⟨[], []⟩).1.stateOf.messages.filter
        Msg.isFCO).length = 0
    ∧ (run_tool_loop llmC9b decodeFail toolingW ⟨5⟩ ⟨[], []⟩).1.isDone = true
    ∧ ((run_tool_loop llmC9b decodeFail toolingW ⟨5⟩ ⟨[], []⟩).1.stateOf.messages.filter
        Msg.isFCO).length = 1 := by decide

/-- Counterexample to C1 as stated: the request's `call_id` key is present
with value `""` and its `id` is `fc_1`; the transcript contains that request
(filtered by the identifier the claim asserts, `call_id` when present), but
the single appended tool result carries `fc_1` and none carries `""`,
because the source computes `call.get("call_id") or call.get("id")` and the
empty string is falsy. -/
theorem claimC1_counterexample :
    ((run_tool_loop llmC1x decodeOk toolingW ⟨2⟩ ⟨[], []⟩).1.stateOf.messages.filter
        (fun m => match m with
          | .item it => it.specCallId == some ""
          | _ => false)).length = 1
    ∧ ((run_tool_loop llmC1x decodeOk toolingW ⟨2⟩ ⟨[], []⟩).1.stateOf.messages.filter
        (Msg.isFCOWith (some ""))).length = 0
    ∧ ((run_tool_loop llmC1x decodeOk toolingW ⟨2⟩ ⟨[], []⟩).1.stateOf.messages.filter
        Msg.isFCO).length = 1
    ∧ ((run_tool_loop llmC1x decodeOk toolingW ⟨2⟩ ⟨[], []⟩).1.stateOf.messages.filter
        (Msg.isFCOWith (some "fc_1"))).length = 1 := by decide

theorem roundUpdate_base_le (mt : Nat → Option String) (bench : Nat → BenchR)
    (it : Nat) (cand : String) (s : OptState) :
    (roundUpdate mt bench it cand s).base_ms ≤ s.base_ms := by
  unfold roundUpdate
  by_cases h : (bench it).median_ms < s.base_ms
  · rw [if_pos h]
    exact le_of_lt h
  · rw [if_neg h]

theorem roundUpdate_of_not_lt (mt : Nat → Option String) (bench : Nat → BenchR)
    (it : Nat) (cand : String) (s : OptState)
    (h : ¬((bench it).median_ms < s.base_ms)) :
    roundUpdate mt bench it cand s = s := by
  unfold roundUpdate
  rw [if_neg h]

theorem optimizeRounds_base_le (mt : Nat → Option String) (bench : Nat → BenchR)
    (th : ℚ) : ∀ (k it : Nat) (s : OptState),
    (optimizeRounds mt bench th it k s).base_ms ≤ s.base_ms := by
  intro k
  induction k with
  | zero => intro it s; exact le_refl _
  | succ n ih =>
    intro it s
    cases hx : extract_sql_from_model ((mt it).getD "") with
    | none => simp only [optimizeRounds, hx]; exact le_refl _
    | some cand =>
      simp only [optimizeRounds, hx]
      by_cases hce : cand = ""
      · rw [if_pos hce]
      · rw [if_neg hce]
        by_cases hok : (bench it).okFlag = false
        · rw [if_pos hok]
          exact ih (it+1) s
        · rw [if_neg hok]
          by_cases hth : th ≤ improvePct bench it s
          · rw [if_pos hth]
            exact roundUpdate_base_le mt bench it cand s
          · rw [if_neg hth]
            exact le_trans (ih (it+1) (roundUpdate mt bench it cand s))
              (roundUpdate_base_le mt bench it cand s)

/-- C2: the best candidate and its reference median are updated only on a
strictly smaller measured median — a round whose candidate median is not
below the current reference passes the state through unchanged — hence the
reference median is non-increasing across rounds, and a run whose baseline
benchmark succeeded returns a state whose recorded reference is at most the
baseline's measured median. -/
theorem claimC2 (mt : Nat → Option String) (bench : Nat → BenchR) (th : ℚ) :
    (∀ (it k : Nat) (s : OptState), s.base_ms ≤ (bench it).median_ms →
        optimizeRounds mt bench th it (k+1) s = s
        ∨ optimizeRounds mt bench th it (k+1) s = optimizeRounds mt bench th (it+1) k s)
    ∧ (∀ (k it : Nat) (s : OptState),
        (optimizeRounds mt bench th it k s).base_ms ≤ s.base_ms)
    ∧ (∀ (base_bench : BenchR) (mi : Int) (bad : String) (r : OptState),
        optimize mt bench base_bench th mi bad = some r →
        r.base_ms ≤ base_bench.median_ms) := by
  refine ⟨?_, optimizeRounds_base_le mt bench th, ?_⟩
  · intro it k s h
    cases hx : extract_sql_from_model ((mt it).getD "") with
    | none => simp [optimizeRounds, hx]
    | some cand =>
      simp only [optimizeRounds, hx]
      by_cases hce : cand = ""
      · rw [if_pos hce]
        exact Or.inl rfl
      · rw [if_neg hce]
        by_cases hok : (bench it).okFlag = false
        · rw [if_pos hok]
          exact Or.inr rfl
        · rw [if_neg hok]
          rw [roundUpdate_of_not_lt mt bench it cand s (not_lt.mpr h)]
          by_cases hth : th ≤ improvePct bench it s
          · rw [if_pos hth]
            exact Or.inl rfl
          · rw [if_neg hth]
            exact Or.inr rfl
  · intro bb mi bad r hopt
    simp only [optimize] at hopt
    by_cases h : bb.okFlag = false
    · rw [if_pos h] at hopt
      exact absurd hopt (by simp)
    · rw [if_neg h] at hopt
      have hr := Option.some.inj hopt
      subst hr
      exact optimizeRounds_base_le mt bench th mi.toNat 1
        { best_sql := bad, base_ms := bb.median_ms, best_report := none }

/-- Witness for C2: a candidate measuring 5 ms against a reference of 3 ms is
not adopted, and the final reference never exceeds the starting one. -/
theorem claimC2_witness :
    (optimizeRounds mtW benchW5 10 1 1 { best_sql := "q", base_ms := 3, best_report := none }
        = { best_sql := "q", base_ms := 3, best_report := none }
      ∨ optimizeRounds mtW benchW5 10 1 1 { best_sql := "q", base_ms := 3, best_report := none }
        = optimizeRounds mtW benchW5 10 2 0 { best_sql := "q", base_ms := 3, best_report := none })
    ∧ (optimizeRounds mtW benchW5 10 1 5
        { best_sql := "q", base_ms := 3, best_report := none }).base_ms ≤ 3 := by
  exact ⟨(claimC2 mtW benchW5 10).1 1 0 _ (by decide),
    (claimC2 mtW benchW5 10).2.1 5 1 _⟩

/-- C6: in a round that reaches the candidate benchmark (a truthy extracted
candidate) and finds it successful, the improvement is
`(reference_ms - candidate_ms) / reference_ms * 100` computed against the
current reference, the loop stops at this round exactly when the improvement
reaches the threshold (and otherwise recurses from the updated state), and a
reference of 120 ms with a candidate of 90 ms yields 25 percent and adopts
the candidate. -/
theorem claimC6 (mt : Nat → Option String) (bench : Nat → BenchR) (th : ℚ)
    (it k : Nat) (s : OptState) (cand : String)
    (hx : extract_sql_from_model ((mt it).getD "") = some cand)
    (hcand : cand ≠ "")
    (hok : (bench it).okFlag = true) :
    improvePct bench it s = (s.base_ms - (bench it).median_ms) / s.base_ms * 100
    ∧ (th ≤ improvePct bench it s →
        optimizeRounds mt bench th it (k+1) s = roundUpdate mt bench it cand s)
    ∧ (improvePct bench it s < th →
        optimizeRounds mt bench th it (k+1) s
          = optimizeRounds mt bench th (it+1) k (roundUpdate mt bench it cand s))
    ∧ (s.base_ms = 120 → (bench it).median_ms = 90 →
        improvePct bench it s = 25
        ∧ (roundUpdate mt bench it cand s).best_sql = cand
        ∧ (roundUpdate mt bench it cand s).base_ms = 90) := by
  have hok' : ¬((bench it).okFlag = false) := by rw [hok]; simp
  refine ⟨rfl, ?_, ?_, ?_⟩
  · intro hth
    simp only [optimizeRounds, hx]
    rw [if_neg hcand, if_neg hok', if_pos hth]
  · intro hth
    simp only [optimizeRounds, hx]
    rw [if_neg hcand, if_neg hok', if_neg (not_le.mpr hth)]
  · intro h120 h90
    have h25 : improvePct bench it s = 25 := by
      unfold improvePct
      rw [h120, h90]
      norm_num
    have hlt : (bench it).median_ms < s.base_ms := by
      rw [h120, h90]
      norm_num
    refine ⟨h25, ?_, ?_⟩
    · unfold roundUpdate
      rw [if_pos hlt]
    · unfold roundUpdate
      rw [if_pos hlt, h90]

/-- Witness for C6 at the spec scenario: reference 120 ms, candidate 90 ms,
threshold 25 — the improvement is 25 percent, the candidate is adopted and
the run stops at this round. -/
theorem claimC6_witness :
    optimizeRounds mtW benchW90 25 1 1
        { best_sql := "orig", base_ms := 120, best_report := none }
      = roundUpdate mtW benchW90 1 "SELECT a FROM t"
          { best_sql := "orig", base_ms := 120, best_report := none }
    ∧ improvePct benchW90 1 { best_sql := "orig", base_ms := 120, best_report := none } = 25
    ∧ (roundUpdate mtW benchW90 1 "SELECT a FROM t"
        { best_sql := "orig", base_ms := 120, best_report := none }).best_sql
      = "SELECT a FROM t"
    ∧ (roundUpdate mtW benchW90 1 "SELECT a FROM t"
        { best_sql := "orig", base_ms := 120, best_report := none }).base_ms = 90 := by
  have h := claimC6 mtW benchW90 25 1 0
    { best_sql := "orig", base_ms := 120, best_report := none } "SELECT a FROM t"
    (by decide) (by decide) rfl
  have h3 := h.2.2.2 rfl rfl
  exact ⟨h.2.1 (le_of_eq h3.1.symm), h3.1, h3.2.1, h3.2.2⟩

/-- C8: a failed candidate benchmark (`ok` false) in any round that reaches
it (a truthy extracted candidate) keeps the previous best and reference and
proceeds to the next round without throwing,
and the whole run fails exactly when the initial baseline benchmark fails —
there is no fallback baseline. -/
theorem claimC8 (mt : Nat → Option String) (bench : Nat → BenchR) (th : ℚ) :
    (∀ (it k : Nat) (s : OptState) (cand : String),
        extract_sql_from_model ((mt it).getD "") = some cand → cand ≠ "" →
        (bench it).okFlag = false →
        optimizeRounds mt bench th it (k+1) s = optimizeRounds mt bench th (it+1) k s)
    ∧ (∀ (base_bench : BenchR) (mi : Int) (bad : String),
        optimize mt bench base_bench th mi bad = none ↔ base_bench.okFlag = false) := by
  constructor
  · intro it k s cand hx hcand hfail
    simp only [optimizeRounds, hx]
    rw [if_neg hcand, if_pos hfail]
  · intro bb mi bad
    simp only [optimize]
    by_cases h : bb.okFlag = false
    · simp [h]
    · simp [h]

/-- Witness for C8: a round whose candidate benchmark fails passes the state
to the next round unchanged, and a failed baseline fails the run. -/
theorem claimC8_witness :
    optimizeRounds mtW benchWfail 10 1 1 { best_sql := "q", base_ms := 3, best_report := none }
      = optimizeRounds mtW benchWfail 10 2 0 { best_sql := "q", base_ms := 3, best_report := none }
    ∧ (optimize mtW benchWfail (.fail (some "boom")) 10 2 "q" = none
        ↔ (BenchR.fail (some "boom")).okFlag = false) := by
  exact ⟨(claimC8 mtW benchWfail 10).1 1 0 _ "SELECT a FROM t" (by decide) (by decide) rfl,
    (claimC8 mtW benchWfail 10).2 (.fail (some "boom")) 2 "q"⟩

theorem startsFence_cons_false (c : Char) (l : List Char) (h : c ≠ backtick) :
    startsFence (c :: l) = false := by
  have hc : (c == backtick) = false := beq_eq_false_iff_ne.mpr h
  cases l with
  | nil => rfl
  | cons c1 l =>
    cases l with
    | nil => rfl
    | cons c2 l =>
      cases l with
      | nil => rfl
      | cons c3 l =>
        cases l with
        | nil => rfl
        | cons c4 l =>
          cases l with
          | nil => rfl
          | cons c5 l => simp [startsFence, hc]

theorem startsClose_cons_false (c : Char) (l : List Char) (h : c ≠ backtick) :
    startsClose (c :: l) = false := by
  have hc : (c == backtick) = false := beq_eq_false_iff_ne.mpr h
  cases l with
  | nil => rfl
  | cons c1 l =>
    cases l with
    | nil => rfl
    | cons c2 l => simp [startsClose, hc]

theorem afterFence_skip : ∀ (pre rest : List Char), backtick ∉ pre →
    afterFence (pre ++ backtick :: backtick :: backtick :: 's' :: 'q' :: 'l' :: rest)
      = some rest := by
  intro pre
  induction pre with
  | nil =>
    intro rest _
    have hs : startsFence (backtick :: backtick :: backtick :: 's' :: 'q' :: 'l' :: rest)
        = true := rfl
    simp [afterFence, hs]
  | cons c pre ih =>
    intro rest h
    have hc : c ≠ backtick := by
      intro e
      apply h
      rw [e]
      exact List.mem_cons_self _ _
    have hpre : backtick ∉ pre := fun hm => h (List.mem_cons_of_mem _ hm)
    have hf := startsFence_cons_false c
      (pre ++ backtick :: backtick :: backtick :: 's' :: 'q' :: 'l' :: rest) hc
    show afterFence (c :: (pre ++ backtick :: backtick :: backtick ::
        's' :: 'q' :: 'l' :: rest)) = some rest
    simp only [afterFence, hf, Bool.false_eq_true, if_false]
    exact ih rest hpre

theorem upToClose_skip : ∀ (content rest : List Char), backtick ∉ content →
    upToClose (content ++ backtick :: backtick :: backtick :: rest) = some content := by
  intro content
  induction content with
  | nil =>
    intro rest _
    have hs : startsClose (backtick :: backtick :: backtick :: rest) = true := rfl
    simp [upToClose, hs]
  | cons c content ih =>
    intro rest h
    have hc : c ≠ backtick := by
      intro e
      apply h
      rw [e]
      exact List.mem_cons_self _ _
    have hrest : backtick ∉ content := fun hm => h (List.mem_cons_of_mem _ hm)
    have hf := startsClose_cons_false c
      (content ++ backtick :: backtick :: backtick :: rest) hc
    show upToClose (c :: (content ++ backtick :: backtick :: backtick :: rest))
        = some (c :: content)
    simp only [upToClose, hf, Bool.false_eq_true, if_false, ih rest hrest]
    rfl

/-- C7: candidate extraction returns the stripped body of the first fenced
sql block when one is present (stated for a block whose surroundings and body
are backtick-free, which pins the regex match); with no fenced block it
returns the stripped whole text exactly when the text contains the keyword
`select` case-insensitively, and otherwise no candidate; and a round whose
final text yields no candidate stops the optimization run at the state
reached so far. -/
theorem claimC7 :
    (∀ (pre content post : List Char), backtick ∉ pre → backtick ∉ content →
        extract_sql_from_model (String.mk (pre ++ backtick :: backtick :: backtick ::
            's' :: 'q' :: 'l' :: (content ++ backtick :: backtick :: backtick :: post)))
          = some (String.mk (stripChars content)))
    ∧ (∀ text : String, hasFencedBlock text = false → containsSelect text = true →
        extract_sql_from_model text = some (String.mk (stripChars text.data)))
    ∧ (∀ text : String, hasFencedBlock text = false → containsSelect text = false →
        extract_sql_from_model text = none)
    ∧ (∀ (mt : Nat → Option String) (bench : Nat → BenchR) (th : ℚ) (it k : Nat)
        (s : OptState), extract_sql_from_model ((mt it).getD "") = none →
        optimizeRounds mt bench th it (k+1) s = s) := by
  refine ⟨?_, ?_, ?_, ?_⟩
  · intro pre content post hpre hcontent
    have hne : String.mk (pre ++ backtick :: backtick :: backtick ::
        's' :: 'q' :: 'l' :: (content ++ backtick :: backtick :: backtick :: post))
        ≠ "" := by
      intro e
      have hdata := congrArg String.data e
      simp at hdata
    simp only [extract_sql_from_model, if_neg hne]
    simp only [afterFence_skip pre (content ++ backtick :: backtick :: backtick :: post) hpre,
      upToClose_skip content post hcontent]
  · intro text hfb hsel
    by_cases he : text = ""
    · exfalso
      rw [he] at hsel
      exact absurd hsel (by decide)
    · simp only [extract_sql_from_model, if_neg he]
      cases ha : afterFence text.data with
      | none => simp [hsel]
      | some r =>
        have hup : upToClose r = none := by
          have := hfb
          simp only [hasFencedBlock, ha] at this
          exact Option.not_isSome_iff_eq_none.mp (by simp [this])
        simp [hup, hsel]
  · intro text hfb hsel
    by_cases he : text = ""
    · rw [he]
      rfl
    · simp only [extract_sql_from_model, if_neg he]
      cases ha : afterFence text.data with
      | none => simp [hsel]
      | some r =>
        have hup : upToClose r = none := by
          have := hfb
          simp only [hasFencedBlock, ha] at this
          exact Option.not_isSome_iff_eq_none.mp (by simp [this])
        simp [hup, hsel]
  · intro mt bench th it k s hx
    simp [optimizeRounds, hx]

/-- Witness for C7: one fenced block is extracted and stripped, and a round
with no candidate returns the state unchanged. -/
theorem claimC7_witness :
    extract_sql_from_model (String.mk ("Here:\n".data ++ backtick :: backtick :: backtick ::
        's' :: 'q' :: 'l' :: ("\nSELECT 1\n".data ++ backtick :: backtick :: backtick ::
          "\ndone".data)))
      = some (String.mk (stripChars "\nSELECT 1\n".data))
    ∧ optimizeRounds mtNoSql benchW5 10 1 3 { best_sql := "q", base_ms := 3, best_report := none }
      = { best_sql := "q", base_ms := 3, best_report := none } := by
  exact ⟨claimC7.1 "Here:\n".data "\nSELECT 1\n".data "\ndone".data (by decide) (by decide),
    claimC7.2.2.2 mtNoSql benchW5 10 1 2 _ (by decide)⟩

theorem run_tool_loop_aux_calls_le (llm : Nat → List Item) (d : String → Option Args)
    (T : Tooling) : ∀ (fuel step : Nat) (st : StepState),
    (run_tool_loop_aux llm d T step fuel st).2 ≤ fuel := by
  intro fuel
  induction fuel with
  | zero =>
    intro step st
    simp [run_tool_loop_aux]
  | succ n ih =>
    intro step st
    simp only [run_tool_loop_aux]
    split
    · exact Nat.succ_le_succ (Nat.zero_le n)
    · split
      · exact Nat.succ_le_succ (Nat.zero_le n)
      · next st2 _ => exact Nat.succ_le_succ (ih (step+1) st2)

theorem run_tool_loop_aux_sentinel (llm : Nat → List Item) (d : String → Option Args)
    (T : Tooling) : ∀ (fuel step : Nat) (st : StepState) (ft : Option String)
    (st' : StepState),
    (∀ i, step ≤ i → i < step + fuel →
      ((llm i).filter Item.isFunctionCall).isEmpty = false) →
    (run_tool_loop_aux llm d T step fuel st).1 = .done ft st' →
    ft = some maxStepsSentinel := by
  intro fuel
  induction fuel with
  | zero =>
    intro step st ft st' _ hdone
    simp only [run_tool_loop_aux] at hdone
    injection hdone with h1 h2
    exact h1.symm
  | succ n ih =>
    intro step st ft st' hall hdone
    have hc : ((llm step).filter Item.isFunctionCall).isEmpty = false :=
      hall step (le_refl step) (by omega)
    simp only [run_tool_loop_aux] at hdone
    rw [hc] at hdone
    simp only [Bool.false_eq_true, if_false] at hdone
    split at hdone
    · simp at hdone
    · next st2 _ =>
      exact ih (step+1) st2 ft st'
        (fun i hi1 hi2 => hall i (by omega) (by omega)) hdone

/-- C3: the dialogue loop performs at most `max_tool_steps` Model Gateway
calls; it is total (the fueled recursion always terminates); and when every
turn within the budget requests a tool call and the run returns normally, the
returned final text is the fixed non-null, non-empty sentinel. -/
theorem claimC3 (llm : Nat → List Item) (d : String → Option Args) (T : Tooling)
    (cfg : AgentConfig) (st : StepState) :
    (run_tool_loop llm d T cfg st).2 ≤ cfg.max_tool_steps
    ∧ ((∀ i, i < cfg.max_tool_steps →
          ((llm i).filter Item.isFunctionCall).isEmpty = false) →
        (run_tool_loop llm d T cfg st).1.isDone = true →
        (run_tool_loop llm d T cfg st).1.textOf = some maxStepsSentinel)
    ∧ maxStepsSentinel ≠ "" := by
  refine ⟨run_tool_loop_aux_calls_le llm d T cfg.max_tool_steps 0 st, ?_, by decide⟩
  intro hall hdone
  cases hR : (run_tool_loop llm d T cfg st).1 with
  | done ft st' =>
    have hft := run_tool_loop_aux_sentinel llm d T cfg.max_tool_steps 0 st ft st'
      (fun i _ hi => hall i (by omega)) hR
    rw [hft]
    rfl
  | raised e st' =>
    rw [hR] at hdone
    simp [LoopOutcome.isDone] at hdone

/-- Witness for C3: with a budget of two steps and a model that always
requests a tool call, the loop makes two gateway calls and returns the
sentinel. -/
theorem claimC3_witness :
    (run_tool_loop llmAllCalls decodeOk toolingW ⟨2⟩ ⟨[], []⟩).2 ≤ 2
    ∧ (run_tool_loop llmAllCalls decodeOk toolingW ⟨2⟩ ⟨[], []⟩).1.textOf
        = some maxStepsSentinel
    ∧ maxStepsSentinel ≠ "" := by
  have h := claimC3 llmAllCalls decodeOk toolingW ⟨2⟩ ⟨[], []⟩
  exact ⟨h.1, h.2.1 (by decide) (by decide), h.2.2⟩

theorem processCalls_ok_spec (d : String → Option Args) (T : Tooling) :
    ∀ (cs : List Item) (st st' : StepState),
    processCalls d T cs st = .ok st' →
    st'.messages = st.messages ++ cs.filterMap (outMsgOf d T)
    ∧ ∀ c ∈ cs, c.isFunctionCall = true → (outMsgOf d T c).isSome = true := by
  intro cs
  induction cs with
  | nil =>
    intro st st' h
    simp only [processCalls] at h
    injection h with h
    subst h
    exact ⟨by simp, by intro c hc; simp at hc⟩
  | cons c rest ih =>
    intro st st' h
    cases c with
    | functionCall nm argv cid iid =>
      simp only [processCalls, processCall] at h
      cases hd : SQLAgent.dispatch T nm (decodeArguments d argv) with
      | error e =>
        rw [hd] at h
        simp at h
      | ok r =>
        rw [hd] at h
        obtain ⟨h1, h2⟩ := ih _ st' h
        constructor
        · rw [h1]
          simp [List.filterMap_cons, outMsgOf, hd]
        · intro c' hc' hfc
          rcases List.mem_cons.mp hc' with rfl | hmem
          · simp [outMsgOf, hd]
          · exact h2 c' hmem hfc
    | message content =>
      simp only [processCalls, processCall] at h
      obtain ⟨h1, h2⟩ := ih st st' h
      constructor
      · rw [h1]
        simp [List.filterMap_cons, outMsgOf]
      · intro c' hc' hfc
        rcases List.mem_cons.mp hc' with rfl | hmem
        · simp [Item.isFunctionCall] at hfc
        · exact h2 c' hmem hfc
    | other ty =>
      simp only [processCalls, processCall] at h
      obtain ⟨h1, h2⟩ := ih st st' h
      constructor
      · rw [h1]
        simp [List.filterMap_cons, outMsgOf]
      · intro c' hc' hfc
        rcases List.mem_cons.mp hc' with rfl | hmem
        · simp [Item.isFunctionCall] at hfc
        · exact h2 c' hmem hfc

theorem nodup_filter_beq_one {l : List (Option String)} (h : l.Nodup)
    {a : Option String} (ha : a ∈ l) :
    (l.filter (fun x => x == a)).length = 1 := by
  induction l with
  | nil => cases ha
  | cons b l ih =>
    rw [List.filter_cons]
    rcases List.mem_cons.mp ha with rfl | hmem
    · have hnotin : a ∉ l := (List.nodup_cons.mp h).1
      have hz : (l.filter (fun x => x == a)).length = 0 := by
        rw [List.length_eq_zero, List.filter_eq_nil_iff]
        intro x hx
        simp only [beq_iff_eq]
        rintro rfl
        exact hnotin hx
      simp [hz]
    · have hne : (b == a) = false := by
        rw [beq_eq_false_iff_ne]
        rintro rfl
        exact (List.nodup_cons.mp h).1 hmem
      simp only [hne, Bool.false_eq_true, if_false]
      exact ih (List.nodup_cons.mp h).2 hmem

theorem filterMap_out_count (d : String → Option Args) (T : Tooling)
    (e : Option String) : ∀ (cs : List Item),
    (∀ c ∈ cs, c.isFunctionCall = true → (outMsgOf d T c).isSome = true) →
    ((cs.filterMap (outMsgOf d T)).filter (Msg.isFCOWith e)).length
      = (((cs.filter Item.isFunctionCall).map Item.effCallId).filter
          (fun x => x == e)).length := by
  intro cs
  induction cs with
  | nil => intro _; rfl
  | cons c rest ih =>
    intro hall
    have hrest : ∀ c' ∈ rest, c'.isFunctionCall = true → (outMsgOf d T c').isSome = true :=
      fun c' hm hf => hall c' (List.mem_cons_of_mem _ hm) hf
    cases c with
    | functionCall nm argv cid iid =>
      have hsome := hall _ (List.mem_cons_self _ _) rfl
      cases hd : SQLAgent.dispatch T nm (decodeArguments d argv) with
      | error e2 =>
        rw [outMsgOf, hd] at hsome
        simp at hsome
      | ok r =>
        simp only [List.filterMap_cons, outMsgOf, hd, List.filter_cons,
          Item.isFunctionCall, List.map_cons, Item.effCallId, if_true,
          Msg.isFCOWith]
        by_cases hmatch : (pyOrStr cid iid == e) = true
        · simp [hmatch, ih hrest]
        · simp only [Bool.not_eq_true] at hmatch
          simp [hmatch, ih hrest]
    | message content =>
      simp only [List.filterMap_cons, outMsgOf, List.filter_cons, Item.isFunctionCall]
      simp [ih hrest]
    | other ty =>
      simp only [List.filterMap_cons, outMsgOf, List.filter_cons, Item.isFunctionCall]
      simp [ih hrest]

/-- C1 (amended): in a step whose tool calls all dispatch without raising,
the transcript grows by exactly the raw response items followed by the tool
results, every appended record after the items is a `function_call_output`,
and — when the effective call identifiers (`call_id` if a non-empty string,
else `id`) of the step's requests are pairwise distinct — each request is
answered by exactly one `function_call_output` carrying its effective
identifier before the loop recurses into the next Model Gateway call. -/
theorem claimC1 (llm : Nat → List Item) (d : String → Option Args) (T : Tooling)
    (step fuel : Nat) (st st2 : StepState)
    (hcalls : ((llm step).filter Item.isFunctionCall).isEmpty = false)
    (hok : processCalls d T ((llm step).filter Item.isFunctionCall)
        { st with messages := st.messages ++ (llm step).map Msg.item } = .ok st2) :
    run_tool_loop_aux llm d T step (fuel+1) st
      = ((run_tool_loop_aux llm d T (step+1) fuel st2).1,
         (run_tool_loop_aux llm d T (step+1) fuel st2).2 + 1)
    ∧ st2.messages = st.messages ++ (llm step).map Msg.item
        ++ ((llm step).filter Item.isFunctionCall).filterMap (outMsgOf d T)
    ∧ (∀ m ∈ ((llm step).filter Item.isFunctionCall).filterMap (outMsgOf d T),
        Msg.isFCO m = true)
    ∧ ((((llm step).filter Item.isFunctionCall).map Item.effCallId).Nodup →
        ∀ c ∈ (llm step).filter Item.isFunctionCall,
          ((((llm step).filter Item.isFunctionCall).filterMap
              (outMsgOf d T)).filter (Msg.isFCOWith c.effCallId)).length = 1) := by
  obtain ⟨hmsg, hall⟩ := processCalls_ok_spec d T
    ((llm step).filter Item.isFunctionCall)
    { st with messages := st.messages ++ (llm step).map Msg.item } st2 hok
  refine ⟨?_, ?_, ?_, ?_⟩
  · simp only [run_tool_loop_aux]
    rw [hcalls]
    simp only [Bool.false_eq_true, if_false]
    rw [hok]
  · rw [hmsg]
  · intro m hm
    rcases List.mem_filterMap.mp hm with ⟨c, hc, hout⟩
    cases c with
    | functionCall nm argv cid iid =>
      rw [outMsgOf] at hout
      cases hd : SQLAgent.dispatch T nm (decodeArguments d argv) with
      | error e2 => rw [hd] at hout; simp at hout
      | ok r =>
        rw [hd] at hout
        injection hout with hout
        rw [← hout]
        rfl
    | message content => simp [outMsgOf] at hout
    | other ty => simp [outMsgOf] at hout
  · intro hnd c hc
    have hff : ((llm step).filter Item.isFunctionCall).filter Item.isFunctionCall
        = (llm step).filter Item.isFunctionCall :=
      List.filter_eq_self.mpr (fun a ha => List.of_mem_filter ha)
    rw [filterMap_out_count d T c.effCallId _ hall, hff]
    exact nodup_filter_beq_one hnd (List.mem_map_of_mem Item.effCallId hc)

/-- Witness for C1: a step with two tool calls carrying distinct identifiers
appends exactly one matching tool result for each before the next gateway
call. -/
theorem claimC1_witness :
    ((((llmC1w 0).filter Item.isFunctionCall).filterMap (outMsgOf decodeOk toolingW)).filter
        (Msg.isFCOWith (Item.functionCall (some "list_tables")
          (some (.dict [("x", .i 1)])) (some "a") none).effCallId)).length = 1
    ∧ run_tool_loop_aux llmC1w decodeOk toolingW 0 1 ⟨[], []⟩
      = ((run_tool_loop_aux llmC1w decodeOk toolingW 1 0
            (processCalls decodeOk toolingW ((llmC1w 0).filter Item.isFunctionCall)
              { messages := ([] : List Msg) ++ (llmC1w 0).map Msg.item,
                events := ([] : List Event) }).state).1,
         (run_tool_loop_aux llmC1w decodeOk toolingW 1 0
            (processCalls decodeOk toolingW ((llmC1w 0).filter Item.isFunctionCall)
              { messages := ([] : List Msg) ++ (llmC1w 0).map Msg.item,
                events := ([] : List Event) }).state).2 + 1) := by
  have h := claimC1 llmC1w decodeOk toolingW 0 0 ⟨[], []⟩
    (processCalls decodeOk toolingW ((llmC1w 0).filter Item.isFunctionCall)
      { messages := ([] : List Msg) ++ (llmC1w 0).map Msg.item,
        events := ([] : List Event) }).state (by decide) (by decide)
  exact ⟨h.2.2.2 (by decide) _ (by decide), h.1⟩
